import Mathlib

/-!
Verification development for the spreadsheet-to-API sync utility
(`src/main.py` of scripts_for_excel).

The Python program is shallowly embedded as follows.

* Spreadsheet cell values (`Cell`) are either empty (`Python None`), numeric,
  text, or a date.  Python primitives whose exact behaviour lives outside the
  program (the results of `str(v)`, `float(v)` and
  `datetime.strftime("%d/%m/%Y")`) are carried as oracle data on the cell:
  a numeric or date cell carries its `str` rendering, a text cell carries the
  result of `float(s)` (`none` when the conversion raises).  Numbers are
  modelled as rationals.
* Decoded JSON values are `Json`; Python `None` is `Json.jnull`.  Python
  dictionaries are association lists with unique keys maintained by
  `dictSet` (assignment keeps the original insertion position of an existing
  key, exactly as a Python dict does).
* Fallible Python code (subscripting a missing key, calling `.get` on a
  non-dict, iterating a non-list) is modelled with `Except PyErr`.
* HTTP is modelled environmentally: each call site receives the response the
  remote would give (`none` for a `requests` exception, otherwise a status
  code and decoded JSON body).  The global `AUTH_TOKEN` is threaded
  explicitly; its initial Python value `None` is `Json.jnull`.
-/

/-- Errors a modelled Python expression can raise. -/
inductive PyErr where
  | keyError
  | attrError
  | typeError
deriving DecidableEq, Repr

/-- A raw spreadsheet cell value as seen through openpyxl:
`vnone` is Python `None`; `vnum q srepr` is a number with value `q` and
`str` rendering `srepr`; `vstr s asFloat` is the text `s` together with the
result of Python `float(s)` (`none` when that raises `ValueError`);
`vdate dmy srepr` is a `datetime` whose `strftime("%d/%m/%Y")` is `dmy`. -/
inductive Cell where
  | vnone
  | vnum (q : ℚ) (srepr : String)
  | vstr (s : String) (asFloat : Option ℚ)
  | vdate (dmy : String) (srepr : String)
deriving DecidableEq

/-- Python truthiness of a cell value (`if cell_value:`). -/
def truthyCell : Cell → Bool
  | .vnone => false
  | .vnum q _ => q != 0
  | .vstr s _ => s != ""
  | .vdate _ _ => true

/-- Python `str(v)` for a cell value, via the carried renderings. -/
def pyStrCell : Cell → String
  | .vnone => "None"
  | .vnum _ r => r
  | .vstr s _ => s
  | .vdate _ r => r

/-- Python `float(v)` for a cell value: numbers convert to themselves, text
converts via the carried oracle, `None` and dates raise (`TypeError`). -/
def pyFloat : Cell → Option ℚ
  | .vnum q _ => some q
  | .vstr _ f => f
  | _ => none

/-- Decoded JSON values.  Python `None` is `jnull`.  `jobj` keeps the wire
order of the keys. -/
inductive Json where
  | jnull
  | jbool (b : Bool)
  | jnum (q : ℚ)
  | jstr (s : String)
  | jarr (l : List Json)
  | jobj (l : List (String × Json))

/-- Python truthiness of a decoded JSON value. -/
def truthy : Json → Bool
  | .jnull => false
  | .jbool b => b
  | .jnum q => q != 0
  | .jstr s => s != ""
  | .jarr l => !l.isEmpty
  | .jobj l => !l.isEmpty

/-- Lookup in a Python-dict association list (first binding; `dictSet` keeps
keys unique, so the first binding is the only one). -/
def dictGet : List (String × Json) → String → Option Json
  | [], _ => none
  | (k1, v1) :: t, k => if k1 = k then some v1 else dictGet t k

/-- Python dict assignment `d[k] = v`: replaces the value at an existing key
in place (keeping its insertion position), else appends a new binding. -/
def dictSet : List (String × Json) → String → Json → List (String × Json)
  | [], k, v => [(k, v)]
  | (k1, v1) :: t, k, v =>
      if k1 = k then (k, v) :: t else (k1, v1) :: dictSet t k v

/-- A normalized transaction record: a Python dict from field name to value. -/
abbrev Record := List (String × Json)

/-- Amount coercion of `read_excel_data` (src/main.py lines 86-96): a `None`
cell gives `0.0`; otherwise `abs(float(cell))`, with a conversion failure
(`ValueError`/`TypeError`) giving `0.0`. -/
def importoVal (c : Cell) : ℚ :=
  match c with
  | .vnone => 0
  | c =>
      match pyFloat c with
      | some q => |q|
      | none => 0

/-- Date coercion of `read_excel_data` (lines 97-105): a `datetime` cell is
formatted `DD/MM/YYYY`, any other non-`None` cell becomes `str(cell)`, and a
`None` cell becomes the empty string. -/
def dataVal : Cell → String
  | .vnone => ""
  | .vdate dmy _ => dmy
  | c => pyStrCell c

/-- Default text coercion of `read_excel_data` (lines 106-108):
`str(cell)` for a non-`None` cell, else the empty string. -/
def strVal : Cell → String
  | .vnone => ""
  | c => pyStrCell c

/-- Value stored for one header of one row (the per-header branch of the
row loop of `read_excel_data`). -/
def fieldValue (header : String) (c : Cell) : Json :=
  if header = "Importo" then .jnum (importoVal c)
  else if header = "Data" then .jstr (dataVal c)
  else .jstr (strVal c)

/-- Header-discovery loop of `read_excel_data` (lines 55-69), recursing over
the remaining probe columns.  A hidden column is skipped before anything
else; a truthy header cell contributes `str(cell)` to the headers and its
column to the visible-column list; a falsy header cell at column at most 6
stops discovery; a falsy header cell past column 6 contributes nothing. -/
def discoverAux (cA : ℕ → Cell) (hid : ℕ → Bool) : List ℕ → List String × List ℕ
  | [] => ([], [])
  | c :: cs =>
      if hid c then discoverAux cA hid cs
      else if truthyCell (cA c) then
        (pyStrCell (cA c) :: (discoverAux cA hid cs).1,
         c :: (discoverAux cA hid cs).2)
      else if c ≤ 6 then ([], [])
      else discoverAux cA hid cs

/-- The probe columns of `read_excel_data`: Python `range(1, 20)`. -/
def probeCols : List ℕ := (List.range 19).map (· + 1)

/-- Header discovery over the whole probe range: returns the discovered
headers and the visible-column list. -/
def discoverHeaders (cA : ℕ → Cell) (hid : ℕ → Bool) : List String × List ℕ :=
  discoverAux cA hid probeCols

/-- Row loop body of `read_excel_data` (lines 81-108): builds one record by
assigning `record[header] = fieldValue header cell` for each header and its
matching visible column. -/
def buildRecord (headers : List String) (cols : List ℕ) (rowCell : ℕ → Cell) : Record :=
  (headers.zip cols).foldl
    (fun r hc => dictSet r hc.1 (fieldValue hc.1 (rowCell hc.2))) []

/-- List-of-characters prefix test (helper for the substring test below). -/
def startsWithList : List Char → List Char → Bool
  | [], _ => true
  | _ :: _, [] => false
  | a :: as, b :: bs => a = b && startsWithList as bs

/-- Substring test on character lists (Python `needle in hay`). -/
def containsList (needle : List Char) : List Char → Bool
  | [] => startsWithList needle []
  | h :: t => startsWithList needle (h :: t) || containsList needle t

/-- Python `s.lower()` (the program only lowercases ASCII text). -/
def strLower (s : String) : String := String.mk (s.toList.map Char.toLower)

/-- Python `"american express" in s.lower()`. -/
def containsAE (s : String) : Bool :=
  containsList ("american express".toList) ((strLower s).toList)

/-- Python `item.get(k, "")` as text.  In every record built by
`buildRecord` the fields consulted here ("Titolo", "Descrizione") are
strings when present, so the default covers exactly the missing-key case. -/
def itemStrD (r : Record) (k : String) : String :=
  match dictGet r k with
  | some (.jstr s) => s
  | _ => ""

/-- Record filter `modify_excel` (lines 348-360): drops a record when
"american express" occurs in the lowercased Titolo or Descrizione. -/
def modify_excel (data : List Record) : List Record :=
  data.filter (fun item =>
    !containsAE (itemStrD item "Titolo") && !containsAE (itemStrD item "Descrizione"))

/-- The Record Normalizer `read_excel_data` (lines 47-120).  The sheet is
given as the header-row cells, the hidden flags, and the list of data rows
(functions from column to cell) starting at row 2; the `while` loop of the
source reads rows until the first row whose column-3 cell is `None`, which
is the `takeWhile` below.  When the modify flag is set the filter
`modify_excel` is applied to the result. -/
def read_excel_data (headerCell : ℕ → Cell) (hid : ℕ → Bool)
    (rows : List (ℕ → Cell)) (modifyFlag : Bool) : List Record :=
  let hv := discoverHeaders headerCell hid
  let data := (rows.takeWhile (fun r => r 3 ≠ Cell.vnone)).map
    (fun r => buildRecord hv.1 hv.2 r)
  if modifyFlag then modify_excel data else data

/-- Python round-half-to-even on a rational that is an exact multiple of a
half (the case `round` meets here after scaling by 100). -/
def roundHalfEven (q : ℚ) : ℤ :=
  if q - ⌊q⌋ < 1 / 2 then ⌊q⌋
  else if q - ⌊q⌋ > 1 / 2 then ⌊q⌋ + 1
  else if Even ⌊q⌋ then ⌊q⌋ else ⌊q⌋ + 1

/-- Python `round(x, 2)`. -/
def pyRound2 (q : ℚ) : ℚ := (roundHalfEven (q * 100) : ℚ) / 100

/-- Numeric view of a JSON value as used by Python `+` inside `sum`:
numbers are themselves, booleans count as 0 or 1, anything else raises
`TypeError` (modelled as `none`). -/
def pyNum? : Json → Option ℚ
  | .jnum q => some q
  | .jbool b => some (if b then 1 else 0)
  | _ => none

/-- Python `record.get("Importo", 0)` (line 126). -/
def importoOf (r : Record) : Json := (dictGet r "Importo").getD (.jnum 0)

/-- The running sum of `sum(record.get("Importo", 0) for record in data)`:
a left fold that raises (`none`) at the first non-numeric amount. -/
def sumImportiAux (acc : ℚ) : List Record → Option ℚ
  | [] => some acc
  | r :: rs =>
      match pyNum? (importoOf r) with
      | some v => sumImportiAux (acc + v) rs
      | none => none

/-- Python `sum(record.get("Importo", 0) for record in data)` (line 126). -/
def sumImporti (data : List Record) : Option ℚ := sumImportiAux 0 data

/-- The envelope built by `create_json_body` (lines 128-135).
`processed_date` is the wall-clock string, taken as a parameter. -/
structure Envelope where
  transactions : List Record
  total_records : ℕ
  total_amount : ℚ
  processed_date : String

/-- The Summary Builder `create_json_body` (lines 122-137).  The only
fallible step is the sum (a non-numeric present `Importo` raises
`TypeError` in Python), hence the `Option`. -/
def create_json_body (now : String) (data : List Record) : Option Envelope :=
  (sumImporti data).map (fun s =>
    { transactions := data
      total_records := data.length
      total_amount := pyRound2 s
      processed_date := now })

mutual

/-- Python `==` on decoded JSON values.  Numbers and booleans compare
numerically; values of different kinds are unequal; lists compare
elementwise.  (Decoded objects are compared positionally here; a Python
dict compares order-insensitively, but the program only ever compares the
scalar `t.get("name")` against a record field, so the object case is
inert.) -/
def pyEq : Json → Json → Bool
  | .jnull, .jnull => true
  | .jbool a, .jbool b => a == b
  | .jbool a, .jnum q => (if a then (1 : ℚ) else 0) == q
  | .jnum q, .jbool b => q == (if b then (1 : ℚ) else 0)
  | .jnum a, .jnum b => a == b
  | .jstr a, .jstr b => a == b
  | .jarr a, .jarr b => pyEqList a b
  | .jobj a, .jobj b => pyEqObj a b
  | _, _ => false

/-- Elementwise `==` on JSON lists. -/
def pyEqList : List Json → List Json → Bool
  | [], [] => true
  | a :: as, b :: bs => pyEq a b && pyEqList as bs
  | _, _ => false

/-- Positional `==` on decoded JSON objects. -/
def pyEqObj : List (String × Json) → List (String × Json) → Bool
  | [], [] => true
  | (k1, v1) :: as, (k2, v2) :: bs => k1 == k2 && pyEq v1 v2 && pyEqObj as bs
  | _, _ => false

end

/-- Python `d.get(k)`: `None` for a missing key, `AttributeError` when the
receiver is not a dict. -/
def jget : Json → String → Except PyErr Json
  | .jobj l, k => .ok ((dictGet l k).getD .jnull)
  | _, _ => .error .attrError

/-- Python `d[k]` on a decoded JSON value: `KeyError` for a missing key,
`TypeError` when the receiver is not a dict. -/
def jsub : Json → String → Except PyErr Json
  | .jobj l, k =>
      match dictGet l k with
      | some v => .ok v
      | none => .error .keyError
  | _, _ => .error .typeError

/-- Python `record[k]` on a transaction record: `KeyError` when missing. -/
def rsub (r : Record) (k : String) : Except PyErr Json :=
  match dictGet r k with
  | some v => .ok v
  | none => .error .keyError

/-- An HTTP response as seen by the program: a status code and the decoded
JSON body. -/
structure HttpResp where
  status : ℕ
  body : Json

/-- The Auth Session login `login_api` (lines 148-188).  `cfg` is the
truthiness of `API_CONFIG`; `resp` is the outcome of the `requests.post`
(`none` for a caught `RequestException`); `tok` is the current
`AUTH_TOKEN`.  Returns the boolean result and the new `AUTH_TOKEN`, or the
exception that escapes (subscripting `response_data["data"]` raises
`KeyError` on a 200 body without a "data" key, and `.get` on a non-dict
"data" raises `AttributeError`; neither is caught by the
`except RequestException` clause). -/
def login_api (cfg : Bool) (resp : Option HttpResp) (tok : Json) :
    Except PyErr (Bool × Json) :=
  if cfg then
    match resp with
    | none => .ok (false, tok)
    | some r =>
        if r.status = 200 then
          match jsub r.body "data" with
          | .error e => .error e
          | .ok d =>
              match jget d "token", jget d "access_token" with
              | .ok t1, .ok t2 =>
                  let newTok := if truthy t1 then t1 else t2
                  .ok (truthy newTok, newTok)
              | .error e, _ => .error e
              | _, .error e => .error e
        else .ok (false, tok)
  else .ok (false, tok)

/-- The authenticated GET `api_get_request` (lines 190-223).  Returns the
function result (`none` is Python `None`), the new `AUTH_TOKEN`, and
whether an HTTP request was issued.  Without a truthy token the function
returns immediately; a 401 clears the token; any other failure leaves it. -/
def api_get_request (resp : Option HttpResp) (tok : Json) :
    Option Json × Json × Bool :=
  if truthy tok then
    match resp with
    | none => (none, tok, true)
    | some r =>
        if r.status = 200 then (some r.body, tok, true)
        else if r.status = 401 then (none, .jnull, true)
        else (none, tok, true)
  else (none, tok, false)

/-- The authenticated POST `api_post_request` (lines 225-266).  Returns the
boolean result, the new `AUTH_TOKEN`, and the submitted body when an HTTP
request was issued (`none` when not).  The body is assembled by subscripting
five record fields before the `try` block, so a missing field raises
`KeyError` out of the function.  Status 200/201 is success; a 401 clears
the token; any other status or a network failure reports `False`. -/
def api_post_request (item : Record) (resp : Option HttpResp) (tok : Json) :
    Except PyErr (Bool × Json × Option Json) :=
  if truthy tok then do
    let name ← rsub item "Titolo"
    let desc ← rsub item "Descrizione"
    let amount ← rsub item "Importo"
    let ty ← rsub item "Tipo"
    let date ← rsub item "Data"
    let body : Json := .jobj [("name", name), ("description", desc),
      ("amount", amount), ("type", ty), ("date", date)]
    match resp with
    | none => .ok (false, tok, some body)
    | some r =>
        if r.status = 200 ∨ r.status = 201 then .ok (true, tok, some body)
        else if r.status = 401 then .ok (false, .jnull, some body)
        else .ok (false, tok, some body)
  else .ok (false, tok, none)

/-- One HTTP call issued during the workflow. -/
inductive Event where
  | loginReq
  | getReq
  | postReq (body : Json)

/-- The Python `Tipo` lookup `item.get("Tipo")` (line 286). -/
def itemTipo (item : Record) : Json := (dictGet item "Tipo").getD .jnull

/-- The generator search
`next((t for t in type_data if t.get("name") == tipo_spesa), None)`
(line 288): first element whose "name" equals the category text; an element
on which `.get` raises aborts the search with that exception. -/
def findCat (tipo : Json) : List Json → Except PyErr (Option Json)
  | [] => .ok none
  | t :: ts =>
      match jget t "name" with
      | .error e => .error e
      | .ok n => if pyEq n tipo then .ok (some t) else findCat tipo ts

/-- Category resolution for one record (lines 285-290): when both the
record category and the fetched data are truthy, the first exact name
match rewrites `item["Tipo"]` to that category's "_id"; otherwise the
record is untouched.  Iterating a truthy non-list `type_data` raises. -/
def resolveItem (typeData : Json) (item : Record) : Except PyErr Record :=
  if truthy (itemTipo item) && truthy typeData then
    match typeData with
    | .jarr l =>
        match findCat (itemTipo item) l with
        | .error e => .error e
        | .ok none => .ok item
        | .ok (some t) =>
            match jget t "_id" with
            | .error e => .error e
            | .ok id => .ok (dictSet item "Tipo" id)
    | _ => .error .typeError
  else .ok item

/-- The resolution loop over all transactions (lines 285-290).  Returns the
records after the loop together with the exception that ended it, if any:
records before the failing one keep their rewrites, the failing one and the
rest stay as they were (the Python loop mutates in place and the exception
escapes the workflow). -/
def resolveAll (typeData : Json) : List Record → List Record × Option PyErr
  | [] => ([], none)
  | item :: rest =>
      match resolveItem typeData item with
      | .error e => (item :: rest, some e)
      | .ok item1 =>
          let r := resolveAll typeData rest
          (item1 :: r.1, r.2)

/-- Result of the POST loop: the per-record boolean outcomes in order, the
final token, the issued HTTP events, and whether an exception aborted the
loop (it is caught by the `except Exception` around the loop, so nothing
escapes, but no further record is attempted). -/
structure LoopOut where
  outcomes : List Bool
  tok : Json
  events : List Event
  aborted : Bool

/-- The POST loop of `execute_api_workflow` (lines 294-303) over the
remaining records.  `postEnv n` is the response the remote gives to the
n-th issued POST of the run. -/
def postLoop (postEnv : ℕ → Option HttpResp) :
    List Record → Json → ℕ → LoopOut
  | [], tok, _ => ⟨[], tok, [], false⟩
  | item :: rest, tok, n =>
      match api_post_request item (postEnv n) tok with
      | .error _ => ⟨[], tok, [], true⟩
      | .ok (b, tok1, io) =>
          let o := postLoop postEnv rest tok1
            (n + (match io with | some _ => 1 | none => 0))
          ⟨b :: o.outcomes, o.tok,
           (match io with | some bd => [Event.postReq bd] | none => []) ++ o.events,
           o.aborted⟩

/-- Observable result of one run of `execute_api_workflow`: the final
`AUTH_TOKEN`, the HTTP calls issued, the POST-loop outcomes, the
transaction records after the run, and the exception escaping the
function, if any. -/
structure WfResult where
  tok : Json
  events : List Event
  outcomes : List Bool
  records : List Record
  raised : Option PyErr

/-- The Sync Workflow `execute_api_workflow` (lines 268-305): login (abort
on reported failure; an uncaught login exception escapes), the GET lookup,
`type_data = types_response.get("data") if types_response else None`
(a truthiness test, so a falsy body also yields `None`), the category
resolution loop (whose exceptions escape), then the POST loop (whose
exceptions are caught, aborting only the remaining submissions). -/
def execute_api_workflow (cfg : Bool) (loginResp : Option HttpResp)
    (getResp : Option HttpResp) (postEnv : ℕ → Option HttpResp)
    (transactions : List Record) (tok0 : Json) : WfResult :=
  let loginEvs : List Event := if cfg then [.loginReq] else []
  match login_api cfg loginResp tok0 with
  | .error e => ⟨tok0, loginEvs, [], transactions, some e⟩
  | .ok (false, tok1) => ⟨tok1, loginEvs, [], transactions, none⟩
  | .ok (true, tok1) =>
      let g := api_get_request getResp tok1
      let evs1 := loginEvs ++ (if g.2.2 then [Event.getReq] else [])
      let tdE : Except PyErr Json :=
        match g.1 with
        | none => .ok .jnull
        | some body => if truthy body then jget body "data" else .ok .jnull
      match tdE with
      | .error e => ⟨g.2.1, evs1, [], transactions, some e⟩
      | .ok typeData =>
          let ra := resolveAll typeData transactions
          match ra.2 with
          | some e => ⟨g.2.1, evs1, [], ra.1, some e⟩
          | none =>
              let lo := postLoop postEnv ra.1 g.2.1 0
              ⟨lo.tok, evs1 ++ lo.events, lo.outcomes, ra.1, none⟩

example :
    discoverAux (fun c => if c = 2 then Cell.vnone else Cell.vstr "A" none)
      (fun _ => false) [1, 2, 3] = (["A"], [1]) := by decide

example : importoVal (Cell.vnum (-3.5) "-3.5") = 3.5 := by norm_num [importoVal, pyFloat]

example : importoVal (Cell.vstr "abc" none) = 0 := by decide

/-! ## Dictionary lemmas -/

theorem dictGet_dictSet_self (r : List (String × Json)) (k : String) (v : Json) :
    dictGet (dictSet r k v) k = some v := by
  induction r with
  | nil => simp [dictGet, dictSet]
  | cons p t ih =>
      obtain ⟨k1, v1⟩ := p
      by_cases h : k1 = k
      · simp [dictSet, h, dictGet]
      · simp [dictSet, h, dictGet, ih]

theorem dictGet_dictSet_other (r : List (String × Json)) {k1 k2 : String}
    (v : Json) (h : k1 ≠ k2) : dictGet (dictSet r k1 v) k2 = dictGet r k2 := by
  induction r with
  | nil => simp [dictGet, dictSet, h]
  | cons p t ih =>
      obtain ⟨ka, va⟩ := p
      by_cases hk : ka = k1
      · simp [dictSet, hk, dictGet, h]
      · simp [dictSet, hk, dictGet, ih]

/-! ## Header-discovery lemmas -/

theorem discoverAux_fst_eq_map (cA : ℕ → Cell) (hid : ℕ → Bool) :
    ∀ l : List ℕ, (discoverAux cA hid l).1
      = (discoverAux cA hid l).2.map (fun c => pyStrCell (cA c)) := by
  intro l
  induction l with
  | nil => simp [discoverAux]
  | cons c cs ih =>
      by_cases h1 : hid c
      · simp [discoverAux, h1, ih]
      · by_cases h2 : truthyCell (cA c)
        · simp [discoverAux, h1, h2, ih]
        · by_cases h3 : c ≤ 6 <;> simp [discoverAux, h1, h2, h3, ih]

theorem discoverAux_length (cA : ℕ → Cell) (hid : ℕ → Bool) (l : List ℕ) :
    (discoverAux cA hid l).1.length = (discoverAux cA hid l).2.length := by
  rw [discoverAux_fst_eq_map]; simp

theorem discoverAux_vis_mem (cA : ℕ → Cell) (hid : ℕ → Bool) :
    ∀ (l : List ℕ) (c : ℕ), c ∈ (discoverAux cA hid l).2 →
      c ∈ l ∧ hid c = false ∧ truthyCell (cA c) = true := by
  intro l
  induction l with
  | nil => simp [discoverAux]
  | cons a cs ih =>
      intro c hc
      by_cases h1 : hid a
      · simp only [discoverAux, h1, if_true] at hc
        rcases ih c hc with ⟨hm, hh, ht⟩
        exact ⟨List.mem_cons_of_mem _ hm, hh, ht⟩
      · by_cases h2 : truthyCell (cA a)
        · simp only [discoverAux, h1, h2, if_false, if_true, Bool.false_eq_true,
            List.mem_cons] at hc
          rcases hc with rfl | hc
          · exact ⟨List.mem_cons_self _ _, by simpa using h1, h2⟩
          · rcases ih c hc with ⟨hm, hh, ht⟩
            exact ⟨List.mem_cons_of_mem _ hm, hh, ht⟩
        · by_cases h3 : a ≤ 6
          · simp [discoverAux, h1, h2, h3] at hc
          · simp only [discoverAux, h1, h2, h3, if_false, Bool.false_eq_true] at hc
            rcases ih c hc with ⟨hm, hh, ht⟩
            exact ⟨List.mem_cons_of_mem _ hm, hh, ht⟩

theorem discoverAux_congr (cA cA1 : ℕ → Cell) (hid : ℕ → Bool) :
    ∀ l : List ℕ, (∀ c ∈ l, cA c = cA1 c) →
      discoverAux cA hid l = discoverAux cA1 hid l := by
  intro l
  induction l with
  | nil => intro _; rfl
  | cons a cs ih =>
      intro hagree
      have ha : cA a = cA1 a := hagree a (List.mem_cons_self _ _)
      have hcs : ∀ c ∈ cs, cA c = cA1 c :=
        fun c hc => hagree c (List.mem_cons_of_mem _ hc)
      by_cases h1 : hid a
      · simp only [discoverAux, h1, if_true, ih hcs]
      · by_cases h2 : truthyCell (cA a)
        · simp only [discoverAux, h1, Bool.false_eq_true, if_false, ha] at h2 ⊢
          simp [h2, ih hcs, ha]
        · by_cases h3 : a ≤ 6 <;>
          · simp only [discoverAux, h1, Bool.false_eq_true, if_false, ha] at h2 ⊢
            simp [h2, h3, ih hcs]

theorem mem_probeCols {c : ℕ} (h : c ∈ probeCols) : 1 ≤ c ∧ c ≤ 19 := by
  simp only [probeCols, List.mem_map, List.mem_range] at h
  omega

/-! ## Record-construction lemmas -/

theorem buildRecord_lookup (f : ℕ → Cell) :
    ∀ (pairs : List (String × ℕ)) (k : String), k ∈ pairs.map Prod.fst →
      ∃ col, (k, col) ∈ pairs ∧
        dictGet (pairs.foldl (fun r hc => dictSet r hc.1 (fieldValue hc.1 (f hc.2))) []) k
          = some (fieldValue k (f col)) := by
  intro pairs
  induction pairs using List.reverseRecOn with
  | nil => intro k hk; simp at hk
  | append_singleton ps p ih =>
      intro k hk
      obtain ⟨kp, cp⟩ := p
      rw [List.foldl_append, List.foldl_cons, List.foldl_nil]
      by_cases hkp : kp = k
      · subst hkp
        exact ⟨cp, by simp, dictGet_dictSet_self _ _ _⟩
      · have hk2 : k ∈ ps.map Prod.fst := by
          simp only [List.map_append, List.mem_append, List.map_cons, List.map_nil,
            List.mem_singleton] at hk
          rcases hk with h | h
          · exact h
          · exact absurd h.symm hkp
        obtain ⟨col, hmem, hget⟩ := ih k hk2
        exact ⟨col, List.mem_append_left _ hmem,
          by rw [dictGet_dictSet_other _ _ hkp, hget]⟩

theorem read_excel_mem (headerCell : ℕ → Cell) (hid : ℕ → Bool)
    (rows : List (ℕ → Cell)) (flag : Bool) (rec : Record)
    (h : rec ∈ read_excel_data headerCell hid rows flag) :
    ∃ rowf, rowf ∈ rows ∧
      rec = buildRecord (discoverHeaders headerCell hid).1
        (discoverHeaders headerCell hid).2 rowf := by
  simp only [read_excel_data] at h
  have h2 : rec ∈ (rows.takeWhile (fun r => r 3 ≠ Cell.vnone)).map
      (fun r => buildRecord (discoverHeaders headerCell hid).1
        (discoverHeaders headerCell hid).2 r) := by
    by_cases hf : flag
    · simp only [hf, if_true, modify_excel] at h
      exact List.mem_of_mem_filter h
    · simpa only [hf, if_false] using h
  obtain ⟨rowf, hmem, heq⟩ := List.mem_map.mp h2
  exact ⟨rowf, (List.takeWhile_sublist _).mem hmem, heq.symm⟩

/-- Claim C1: for every row normalized by the Record Normalizer, when
"Importo" is among the discovered headers the emitted record has an Importo
field whose value is the amount coercion of the cell in some discovered
Importo column of that row; the coercion is abs of `float(cell)` when the
conversion succeeds, exactly 0 when the cell is `None` or the conversion
fails, and is non-negative in all cases. -/
theorem c1_amount_nonneg :
    (∀ (c : Cell) (q : ℚ), pyFloat c = some q → importoVal c = |q|) ∧
    (∀ c : Cell, pyFloat c = none → importoVal c = 0) ∧
    (∀ c : Cell, 0 ≤ importoVal c) ∧
    (∀ (headerCell : ℕ → Cell) (hid : ℕ → Bool) (rows : List (ℕ → Cell))
        (flag : Bool) (rec : Record),
      rec ∈ read_excel_data headerCell hid rows flag →
      "Importo" ∈ (discoverHeaders headerCell hid).1 →
      ∃ rowf, rowf ∈ rows ∧ ∃ col, col ∈ (discoverHeaders headerCell hid).2 ∧
        dictGet rec "Importo" = some (Json.jnum (importoVal (rowf col)))) := by
  refine ⟨?_, ?_, ?_, ?_⟩
  · intro c q h
    cases c <;> simp_all [importoVal, pyFloat]
  · intro c h
    cases c <;> simp_all [importoVal, pyFloat]
  · intro c
    cases c with
    | vnone => simp [importoVal]
    | vnum q r => simp [importoVal, pyFloat, abs_nonneg]
    | vstr s f =>
        cases f with
        | none => simp [importoVal, pyFloat]
        | some q => simp [importoVal, pyFloat, abs_nonneg]
    | vdate d r => simp [importoVal, pyFloat]
  · intro headerCell hid rows flag rec hmem himp
    obtain ⟨rowf, hrow, rfl⟩ := read_excel_mem headerCell hid rows flag rec hmem
    have hlen : (discoverHeaders headerCell hid).1.length
        ≤ (discoverHeaders headerCell hid).2.length :=
      le_of_eq (discoverAux_length _ _ _)
    have hz : "Importo" ∈ ((discoverHeaders headerCell hid).1.zip
        (discoverHeaders headerCell hid).2).map Prod.fst := by
      rw [List.map_fst_zip _ _ hlen]; exact himp
    obtain ⟨col, hmemz, hget⟩ := buildRecord_lookup rowf _ "Importo" hz
    refine ⟨rowf, hrow, col, (List.of_mem_zip hmemz).2, ?_⟩
    rw [buildRecord, hget]
    simp [fieldValue]

/-- Witness for C1 at a one-column sheet holding a negative amount. -/
def hcW : ℕ → Cell := fun c => if c = 1 then Cell.vstr "Importo" none else Cell.vnone

/-- Witness row for C1: every column holds the number -2. -/
def rowW : ℕ → Cell := fun _ => Cell.vnum (-2) "-2"

theorem c1_amount_nonneg_witness :
    importoVal (Cell.vnum (-2) "-2") = |(-2 : ℚ)| ∧
    importoVal (Cell.vstr "x" none) = 0 ∧
    0 ≤ importoVal Cell.vnone ∧
    (∃ rowf, rowf ∈ [rowW] ∧ ∃ col, col ∈ (discoverHeaders hcW (fun _ => false)).2 ∧
      dictGet (buildRecord (discoverHeaders hcW (fun _ => false)).1
        (discoverHeaders hcW (fun _ => false)).2 rowW) "Importo"
          = some (Json.jnum (importoVal (rowf col)))) :=
  ⟨c1_amount_nonneg.1 _ (-2) rfl,
   c1_amount_nonneg.2.1 _ rfl,
   c1_amount_nonneg.2.2.1 _,
   c1_amount_nonneg.2.2.2 hcW (fun _ => false) [rowW] false
     (buildRecord (discoverHeaders hcW (fun _ => false)).1
        (discoverHeaders hcW (fun _ => false)).2 rowW)
     (by
       simp only [read_excel_data, if_neg Bool.false_ne_true, List.mem_map]
       exact ⟨rowW, by simp [rowW], rfl⟩)
     (by decide)⟩

/-! ## Claims C7 and C10: header discovery -/

/-- Header row for the C7 counterexample: columns 1-6 hold "H", column 7 is
blank, column 8 holds "X", every later column is blank. -/
def hcellC7 : ℕ → Cell := fun c =>
  if c = 7 then Cell.vnone
  else if c ≤ 6 then Cell.vstr "H" none
  else if c = 8 then Cell.vstr "X" none
  else Cell.vnone

/-- Counterexample to claim C7: with no hidden columns, a blank header cell
in the visible column 7 does not terminate discovery, but contrary to the
claim it does not produce a blank header name either — it contributes
nothing, exactly as a hidden column would, and discovery continues to
column 8. -/
theorem c7_visible_blank_skipped_counterexample :
    discoverHeaders hcellC7 (fun _ => false)
        = (["H", "H", "H", "H", "H", "H", "X"], [1, 2, 3, 4, 5, 6, 8]) ∧
    hcellC7 7 = Cell.vnone ∧
    (∀ h ∈ (discoverHeaders hcellC7 (fun _ => false)).1, h ≠ "") := by
  refine ⟨by decide, by decide, by decide⟩

/-- Claim C7 as amended: a falsy header cell in a visible column at
position at most 6 terminates discovery; a falsy header cell in a visible
column past position 6 does not terminate discovery and contributes
nothing (it is skipped exactly like a hidden column, never producing a
blank header name). -/
theorem c7_header_discovery_amended :
    ∀ (cA : ℕ → Cell) (hid : ℕ → Bool) (c : ℕ) (cs : List ℕ),
      hid c = false → truthyCell (cA c) = false →
      (c ≤ 6 → discoverAux cA hid (c :: cs) = ([], [])) ∧
      (6 < c → discoverAux cA hid (c :: cs) = discoverAux cA hid cs) := by
  intro cA hid c cs hh ht
  constructor
  · intro hc
    simp [discoverAux, hh, ht, hc]
  · intro hc
    simp [discoverAux, hh, ht, Nat.not_le.mpr hc]

theorem c7_header_discovery_amended_witness :
    discoverAux hcellC7 (fun _ => false) [7, 8] = discoverAux hcellC7 (fun _ => false) [8] ∧
    discoverAux (fun _ => Cell.vnone) (fun _ => false) [3, 8] = ([], []) :=
  ⟨(c7_header_discovery_amended hcellC7 (fun _ => false) 7 [8] rfl (by decide)).2
      (by norm_num),
   (c7_header_discovery_amended (fun _ => Cell.vnone) (fun _ => false) 3 [8] rfl
      (by decide)).1 (by norm_num)⟩

/-- Claim C10: header discovery only probes columns 1 through 19 (replacing
the cells outside that window never changes the result); a hidden column is
skipped before the blank-header check, so a hidden column - whatever its
header cell, at any position - never terminates discovery, never enters the
visible-column list, and never contributes a header (every header is the
text of the cell of some visible column of the window). -/
theorem c10_probe_window :
    (∀ (cA cA1 : ℕ → Cell) (hid : ℕ → Bool),
       (∀ c, 1 ≤ c → c ≤ 19 → cA c = cA1 c) →
       discoverHeaders cA hid = discoverHeaders cA1 hid) ∧
    (∀ (cA : ℕ → Cell) (hid : ℕ → Bool) (c : ℕ) (cs : List ℕ),
       hid c = true → discoverAux cA hid (c :: cs) = discoverAux cA hid cs) ∧
    (∀ (cA : ℕ → Cell) (hid : ℕ → Bool) (c : ℕ),
       c ∈ (discoverHeaders cA hid).2 → hid c = false ∧ 1 ≤ c ∧ c ≤ 19) ∧
    (∀ (cA : ℕ → Cell) (hid : ℕ → Bool),
       (discoverHeaders cA hid).1
         = (discoverHeaders cA hid).2.map (fun c => pyStrCell (cA c))) := by
  refine ⟨?_, ?_, ?_, ?_⟩
  · intro cA cA1 hid hagree
    refine discoverAux_congr cA cA1 hid probeCols (fun c hc => ?_)
    obtain ⟨h1, h2⟩ := mem_probeCols hc
    exact hagree c h1 h2
  · intro cA hid c cs hh
    simp [discoverAux, hh]
  · intro cA hid c hc
    obtain ⟨hmem, hh, _⟩ := discoverAux_vis_mem cA hid probeCols c hc
    obtain ⟨h1, h2⟩ := mem_probeCols hmem
    exact ⟨hh, h1, h2⟩
  · intro cA hid
    exact discoverAux_fst_eq_map cA hid probeCols

theorem c10_probe_window_witness :
    discoverHeaders hcellC7 (fun _ => false)
        = discoverHeaders (fun c => if c ≤ 19 then hcellC7 c else Cell.vstr "junk" none)
            (fun _ => false) ∧
    discoverAux hcellC7 (fun c => c = 3) [3, 8] = discoverAux hcellC7 (fun c => c = 3) [8] ∧
    (8 ∈ (discoverHeaders hcellC7 (fun _ => false)).2 →
      (fun _ : ℕ => false) 8 = false ∧ 1 ≤ 8 ∧ 8 ≤ 19) :=
  ⟨c10_probe_window.1 hcellC7 _ (fun _ => false)
      (fun c h1 h2 => by simp [h2]),
   c10_probe_window.2.1 hcellC7 (fun c => c = 3) 3 [8] (by simp),
   fun h => c10_probe_window.2.2.1 hcellC7 (fun _ => false) 8 h⟩

/-! ## Claim C2: the summary envelope -/

theorem sumImportiAux_eq_sum (l : List Record)
    (h : ∀ r ∈ l, (pyNum? (importoOf r)).isSome = true) :
    ∀ acc : ℚ, sumImportiAux acc l
      = some (acc + (l.map (fun r => (pyNum? (importoOf r)).getD 0)).sum) := by
  induction l with
  | nil => intro acc; simp [sumImportiAux]
  | cons r rs ih =>
      intro acc
      obtain ⟨v, hv⟩ := Option.isSome_iff_exists.mp (h r (List.mem_cons_self _ _))
      have hrs : ∀ x ∈ rs, (pyNum? (importoOf x)).isSome = true :=
        fun x hx => h x (List.mem_cons_of_mem _ hx)
      simp only [sumImportiAux, hv, ih hrs, List.map_cons, List.sum_cons,
        Option.getD_some]
      ring_nf

/-- Claim C2: for every list of records whose present Importo values are
numeric (a non-numeric present value makes the Python sum raise), the
envelope built by create_json_body has total_records equal to the length of
the list and total_amount equal to round(sum of Importo values with missing
Importo treated as 0, 2); the empty list yields total_records = 0 and
total_amount = 0. -/
theorem c2_summary_envelope :
    ∀ (now : String) (data : List Record),
      (∀ r ∈ data, (pyNum? (importoOf r)).isSome = true) →
      (∃ env, create_json_body now data = some env ∧
        env.transactions = data ∧
        env.total_records = data.length ∧
        env.total_amount
          = pyRound2 ((data.map (fun r => (pyNum? (importoOf r)).getD 0)).sum)) ∧
      create_json_body now [] = some
        { transactions := [], total_records := 0, total_amount := 0,
          processed_date := now } := by
  intro now data h
  have h0 : pyRound2 0 = 0 := by norm_num [pyRound2, roundHalfEven]
  have hs : sumImporti data
      = some ((data.map (fun r => (pyNum? (importoOf r)).getD 0)).sum) := by
    rw [sumImporti, sumImportiAux_eq_sum data h 0, zero_add]
  constructor
  · exact ⟨_, by rw [create_json_body, hs, Option.map_some'], rfl, rfl, rfl⟩
  · simp [create_json_body, sumImporti, sumImportiAux, h0]

theorem c2_summary_envelope_witness :
    (∃ env, create_json_body "d"
        [[("Importo", Json.jnum 2)], [("Importo", Json.jnum 2)], [("Titolo", Json.jstr "t")]]
          = some env ∧
      env.transactions
        = [[("Importo", Json.jnum 2)], [("Importo", Json.jnum 2)], [("Titolo", Json.jstr "t")]] ∧
      env.total_records = 3 ∧
      env.total_amount = pyRound2 (([[("Importo", Json.jnum 2)], [("Importo", Json.jnum 2)],
        [("Titolo", Json.jstr "t")]].map (fun r => (pyNum? (importoOf r)).getD 0)).sum)) ∧
    create_json_body "d" [] = some
      { transactions := [], total_records := 0, total_amount := 0, processed_date := "d" } :=
  c2_summary_envelope "d"
    [[("Importo", Json.jnum 2)], [("Importo", Json.jnum 2)], [("Titolo", Json.jstr "t")]]
    (by
      intro r hr
      simp only [List.mem_cons, List.mem_singleton] at hr
      rcases hr with rfl | rfl | rfl | h
      · rfl
      · rfl
      · rfl
      · cases h)

/-! ## Claims C3, C8, C9: workflow abort, escaping exceptions, missing token -/

/-- Claim C3: whenever login_api reports failure, execute_api_workflow
terminates right after the login step: no GET lookup, no POST submission,
no record touched - the only event is the login call itself. -/
theorem c3_login_failure_aborts :
    ∀ (cfg : Bool) (loginResp getResp : Option HttpResp)
      (postEnv : ℕ → Option HttpResp) (txs : List Record) (tok0 tok1 : Json),
      login_api cfg loginResp tok0 = .ok (false, tok1) →
      execute_api_workflow cfg loginResp getResp postEnv txs tok0 =
        ⟨tok1, if cfg then [Event.loginReq] else [], [], txs, none⟩ ∧
      ∀ e ∈ (execute_api_workflow cfg loginResp getResp postEnv txs tok0).events,
        e = Event.loginReq := by
  intro cfg loginResp getResp postEnv txs tok0 tok1 h
  have heq : execute_api_workflow cfg loginResp getResp postEnv txs tok0 =
      ⟨tok1, if cfg then [Event.loginReq] else [], [], txs, none⟩ := by
    rw [execute_api_workflow, h]
  refine ⟨heq, ?_⟩
  rw [heq]
  by_cases hc : cfg <;> simp [hc]

theorem c3_login_failure_aborts_witness :
    execute_api_workflow true (some ⟨500, Json.jnull⟩) (some ⟨200, Json.jnull⟩)
        (fun _ => some ⟨200, Json.jnull⟩) [[("Tipo", Json.jstr "x")]] Json.jnull =
      ⟨Json.jnull, if true then [Event.loginReq] else [], [],
        [[("Tipo", Json.jstr "x")]], none⟩ :=
  (c3_login_failure_aborts true (some ⟨500, Json.jnull⟩) (some ⟨200, Json.jnull⟩)
    (fun _ => some ⟨200, Json.jnull⟩) [[("Tipo", Json.jstr "x")]] Json.jnull Json.jnull
    rfl).1

/-- Claim C8 fails on the code (code bug): a login HTTP response with
status 200 whose JSON body has no "data" key makes
`response_data["data"]` raise KeyError; the exception is not caught by the
`except RequestException` clause of login_api nor anywhere in
execute_api_workflow or main, so it escapes to the process boundary
instead of being reported as a login failure. -/
theorem c8_login_keyerror_escapes :
    login_api true (some ⟨200, Json.jobj []⟩) Json.jnull = .error PyErr.keyError ∧
    (execute_api_workflow true (some ⟨200, Json.jobj []⟩) none (fun _ => none)
        [] Json.jnull).raised = some PyErr.keyError :=
  ⟨rfl, rfl⟩

/-- Claim C9: with no (truthy) stored token, api_get_request returns None
and api_post_request returns False, both immediately: no HTTP request is
issued and the token is unchanged. -/
theorem c9_no_token_no_request :
    ∀ (resp : Option HttpResp) (tok : Json) (item : Record),
      truthy tok = false →
      api_get_request resp tok = (none, tok, false) ∧
      api_post_request item resp tok = .ok (false, tok, none) := by
  intro resp tok item h
  constructor
  · simp [api_get_request, h]
  · simp [api_post_request, h]

theorem c9_no_token_no_request_witness :
    api_get_request (some ⟨200, Json.jobj [("data", Json.jarr [])]⟩) Json.jnull
        = (none, Json.jnull, false) ∧
    api_post_request [("Titolo", Json.jstr "t")]
        (some ⟨200, Json.jobj [("data", Json.jarr [])]⟩) Json.jnull
        = .ok (false, Json.jnull, none) :=
  c9_no_token_no_request (some ⟨200, Json.jobj [("data", Json.jarr [])]⟩) Json.jnull
    [("Titolo", Json.jstr "t")] rfl

/-! ## Claim C4: category resolution -/

theorem findCat_sound (tipo : Json) :
    ∀ (l : List Json) (t : Json), findCat tipo l = .ok (some t) →
      t ∈ l ∧ ∃ n, jget t "name" = .ok n ∧ pyEq n tipo = true := by
  intro l
  induction l with
  | nil => intro t h; simp [findCat] at h
  | cons a as ih =>
      intro t h
      cases hn : jget a "name" with
      | error e =>
          simp only [findCat, hn] at h
          exact Except.noConfusion h
      | ok n =>
          simp only [findCat, hn] at h
          by_cases hp : pyEq n tipo = true
          · rw [if_pos hp] at h
            have ha : a = t := by
              have := Except.ok.inj h
              exact Option.some.inj this
            subst ha
            exact ⟨List.mem_cons_self _ _, n, hn, hp⟩
          · rw [if_neg hp] at h
            obtain ⟨hm, n2, hn2, hp2⟩ := ih t h
            exact ⟨List.mem_cons_of_mem _ hm, n2, hn2, hp2⟩

theorem findCat_none (tipo : Json) :
    ∀ l : List Json,
      (∀ t ∈ l, ∃ n, jget t "name" = .ok n ∧ pyEq n tipo = false) →
      findCat tipo l = .ok none := by
  intro l
  induction l with
  | nil => intro _; rfl
  | cons a as ih =>
      intro h
      obtain ⟨n, hn, hp⟩ := h a (List.mem_cons_self _ _)
      simp only [findCat, hn, hp, Bool.false_eq_true, if_false]
      exact ih (fun t ht => h t (List.mem_cons_of_mem _ ht))

theorem resolveItem_jnull (item : Record) : resolveItem Json.jnull item = .ok item := by
  simp [resolveItem, truthy]

theorem resolveAll_jnull : ∀ l : List Record, resolveAll Json.jnull l = (l, none) := by
  intro l
  induction l with
  | nil => rfl
  | cons r rs ih => simp [resolveAll, resolveItem_jnull, ih]

/-- Claim C4, in three parts.  (1) Soundness of the rewrite: whenever
resolveItem returns a record different from its input, the fetched data is
a list containing an element whose "name" is an exact (Python ==) match
for the record's Tipo, and the output is the input with Tipo replaced by
that element's "_id".  (2) No-match pass-through: when every fetched
element's "name" fails to match, the record is returned unchanged
(byte-for-byte - it is the same record).  (3) Fetch failure is non-fatal:
when login succeeds and the GET lookup returns None (network error,
non-200 status, or 401), every record keeps its original value, nothing is
raised, and the workflow still runs the POST loop over the unchanged
records. -/
theorem c4_category_resolution :
    (∀ (td : Json) (item item1 : Record), resolveItem td item = .ok item1 →
       item1 = item ∨
       ∃ l t n id, td = Json.jarr l ∧ t ∈ l ∧ jget t "name" = .ok n ∧
         pyEq n (itemTipo item) = true ∧ jget t "_id" = .ok id ∧
         item1 = dictSet item "Tipo" id) ∧
    (∀ (l : List Json) (item : Record),
       (∀ t ∈ l, ∃ n, jget t "name" = .ok n ∧ pyEq n (itemTipo item) = false) →
       resolveItem (Json.jarr l) item = .ok item) ∧
    (∀ (cfg : Bool) (loginResp getResp : Option HttpResp)
        (postEnv : ℕ → Option HttpResp) (txs : List Record) (tok0 tok1 : Json),
       login_api cfg loginResp tok0 = .ok (true, tok1) →
       (api_get_request getResp tok1).1 = none →
       (execute_api_workflow cfg loginResp getResp postEnv txs tok0).records = txs ∧
       (execute_api_workflow cfg loginResp getResp postEnv txs tok0).raised = none ∧
       (execute_api_workflow cfg loginResp getResp postEnv txs tok0).outcomes =
         (postLoop postEnv txs (api_get_request getResp tok1).2.1 0).outcomes) := by
  refine ⟨?_, ?_, ?_⟩
  · intro td item item1 hres
    by_cases hc : (truthy (itemTipo item) && truthy td) = true
    · cases td with
      | jarr l =>
          simp only [resolveItem, hc, if_true] at hres
          cases hfc : findCat (itemTipo item) l with
          | error e =>
              simp only [hfc] at hres
              exact Except.noConfusion hres
          | ok o =>
              cases o with
              | none =>
                  simp only [hfc] at hres
                  exact Or.inl (Except.ok.inj hres).symm
              | some t =>
                  simp only [hfc] at hres
                  cases hid : jget t "_id" with
                  | error e =>
                      simp only [hid] at hres
                      exact Except.noConfusion hres
                  | ok idv =>
                      simp only [hid] at hres
                      obtain ⟨hm, n, hn, hp⟩ := findCat_sound (itemTipo item) l t hfc
                      exact Or.inr ⟨l, t, n, idv, rfl, hm, hn, hp, hid,
                        (Except.ok.inj hres).symm⟩
      | jnull =>
          simp only [resolveItem, hc, if_true] at hres
          exact Except.noConfusion hres
      | jbool b =>
          simp only [resolveItem, hc, if_true] at hres
          exact Except.noConfusion hres
      | jnum q =>
          simp only [resolveItem, hc, if_true] at hres
          exact Except.noConfusion hres
      | jstr s =>
          simp only [resolveItem, hc, if_true] at hres
          exact Except.noConfusion hres
      | jobj o =>
          simp only [resolveItem, hc, if_true] at hres
          exact Except.noConfusion hres
    · unfold resolveItem at hres
      rw [if_neg hc] at hres
      exact Or.inl (Except.ok.inj hres).symm
  · intro l item h
    by_cases hc : (truthy (itemTipo item) && truthy (Json.jarr l)) = true
    · simp only [resolveItem, hc, if_true, findCat_none (itemTipo item) l h]
    · unfold resolveItem
      rw [if_neg hc]
  · intro cfg loginResp getResp postEnv txs tok0 tok1 hlogin hget
    rcases hgr : api_get_request getResp tok1 with ⟨res, tok2, io⟩
    rw [hgr] at hget
    simp only at hget
    subst hget
    simp only [execute_api_workflow, hlogin, hgr, resolveAll_jnull]
    by_cases hio : io <;> simp [hio]

/-- Remote category list for the C4 witness (the spec scenario:
one category named Food with identifier abc123). -/
def tdW : Json := Json.jarr [Json.jobj [("name", Json.jstr "Food"), ("_id", Json.jstr "abc123")]]

/-- Record with a matching category for the C4 witness. -/
def itemW : Record := [("Tipo", Json.jstr "Food")]

/-- Record with an unmatched category for the C4 witness. -/
def itemW2 : Record := [("Tipo", Json.jstr "Unknown")]

theorem c4_category_resolution_witness :
    ([("Tipo", Json.jstr "abc123")] = itemW ∨
      ∃ l t n id, tdW = Json.jarr l ∧ t ∈ l ∧ jget t "name" = .ok n ∧
        pyEq n (itemTipo itemW) = true ∧ jget t "_id" = .ok id ∧
        [("Tipo", Json.jstr "abc123")] = dictSet itemW "Tipo" id) ∧
    resolveItem (Json.jarr [Json.jobj [("name", Json.jstr "Food"), ("_id", Json.jstr "abc123")]])
      itemW2 = .ok itemW2 ∧
    (execute_api_workflow true (some ⟨200, Json.jobj [("data", Json.jobj [("token", Json.jstr "t")])]⟩)
        none (fun _ => none) [itemW] Json.jnull).records = [itemW] :=
  ⟨c4_category_resolution.1 tdW itemW [("Tipo", Json.jstr "abc123")] rfl,
   c4_category_resolution.2.1 [Json.jobj [("name", Json.jstr "Food"), ("_id", Json.jstr "abc123")]]
     itemW2
     (by
       intro t ht
       simp only [List.mem_singleton] at ht
       subst ht
       exact ⟨Json.jstr "Food", rfl, rfl⟩),
   (c4_category_resolution.2.2 true
     (some ⟨200, Json.jobj [("data", Json.jobj [("token", Json.jstr "t")])]⟩)
     none (fun _ => none) [itemW] Json.jnull (Json.jstr "t") rfl rfl).1⟩

/-! ## Claim C5: independence of submissions -/

/-- A record carrying the five fields the POST body subscripts. -/
def hasReqKeys (r : Record) : Bool :=
  (dictGet r "Titolo").isSome && (dictGet r "Descrizione").isSome &&
  (dictGet r "Importo").isSome && (dictGet r "Tipo").isSome &&
  (dictGet r "Data").isSome

theorem api_post_ok_of_keys (item : Record) (resp : Option HttpResp) (tok : Json)
    (h : hasReqKeys item = true) :
    ∃ b tok1 io, api_post_request item resp tok = .ok (b, tok1, io) := by
  by_cases ht : truthy tok = true
  · simp only [hasReqKeys, Bool.and_eq_true] at h
    obtain ⟨⟨⟨⟨h1, h2⟩, h3⟩, h4⟩, h5⟩ := h
    obtain ⟨v1, hv1⟩ := Option.isSome_iff_exists.mp h1
    obtain ⟨v2, hv2⟩ := Option.isSome_iff_exists.mp h2
    obtain ⟨v3, hv3⟩ := Option.isSome_iff_exists.mp h3
    obtain ⟨v4, hv4⟩ := Option.isSome_iff_exists.mp h4
    obtain ⟨v5, hv5⟩ := Option.isSome_iff_exists.mp h5
    simp only [api_post_request, ht, if_true, rsub, hv1, hv2, hv3, hv4, hv5]
    cases resp with
    | none => exact ⟨false, tok, _, rfl⟩
    | some r =>
        by_cases hs : r.status = 200 ∨ r.status = 201
        · simp only [hs, if_true]
          exact ⟨true, tok, _, rfl⟩
        · by_cases hs4 : r.status = 401
          · simp only [hs, if_false, hs4, if_true]
            exact ⟨false, Json.jnull, _, rfl⟩
          · simp only [hs, if_false, hs4]
            exact ⟨false, tok, _, rfl⟩
  · have ht2 : truthy tok = false := by simpa using ht
    refine ⟨false, tok, none, ?_⟩
    simp [api_post_request, ht2]

/-- Successful login response used by the C5 and C6 concrete runs. -/
def loginOkResp : Option HttpResp :=
  some ⟨200, Json.jobj [("data", Json.jobj [("token", Json.jstr "t")])]⟩

/-- A transaction record missing the "Titolo" field required by the POST
body (a sheet without a Titolo header produces such records). -/
def recNoTitolo : Record := [("Descrizione", Json.jstr "d")]

/-- A transaction record carrying all five fields the POST body needs. -/
def recFull : Record :=
  [("Titolo", Json.jstr "a"), ("Descrizione", Json.jstr "b"),
   ("Importo", Json.jnum 1), ("Tipo", Json.jstr "c"), ("Data", Json.jstr "e")]

/-- Counterexample to claim C5: after a successful login, submitting the
list [recNoTitolo, recFull] against a remote that answers 200 to every
POST produces an empty outcome list and no POST event at all: the KeyError
raised while building the first record's body is caught by the
try/except wrapped around the whole loop (main.py lines 294-303), so the
well-formed second record is never attempted - even though the same
second record alone is submitted successfully.  One record's failure thus
does prevent the submission of subsequent records. -/
theorem c5_exception_aborts_rest_counterexample :
    hasReqKeys recFull = true ∧
    (execute_api_workflow true loginOkResp none (fun _ => some ⟨200, Json.jobj []⟩)
        [recNoTitolo, recFull] Json.jnull).outcomes = [] ∧
    (execute_api_workflow true loginOkResp none (fun _ => some ⟨200, Json.jobj []⟩)
        [recNoTitolo, recFull] Json.jnull).events = [Event.loginReq, Event.getReq] ∧
    (execute_api_workflow true loginOkResp none (fun _ => some ⟨200, Json.jobj []⟩)
        [recFull] Json.jnull).outcomes = [true] :=
  ⟨rfl, rfl, rfl, rfl⟩

/-- Claim C5 as amended: submission outcomes reported by api_post_request
are independent - a record whose submission returns False (HTTP error,
401, network failure, missing token) still leaves every subsequent record
to be processed, and when every record carries the five required fields
every record of the run receives exactly one outcome; but an exception
while building a record's POST body (a record missing a required field)
is caught outside the loop and aborts all remaining submissions. -/
theorem c5_independent_submissions_amended :
    (∀ (postEnv : ℕ → Option HttpResp) (item : Record) (rest : List Record)
        (tok : Json) (n : ℕ) (b : Bool) (tok1 : Json) (io : Option Json),
      api_post_request item (postEnv n) tok = .ok (b, tok1, io) →
      (postLoop postEnv (item :: rest) tok n).outcomes
        = b :: (postLoop postEnv rest tok1
            (n + (match io with | some _ => 1 | none => 0))).outcomes) ∧
    (∀ (postEnv : ℕ → Option HttpResp) (items : List Record),
      (∀ r ∈ items, hasReqKeys r = true) →
      ∀ (tok : Json) (n : ℕ),
        ((postLoop postEnv items tok n).outcomes).length = items.length) ∧
    (∀ (postEnv : ℕ → Option HttpResp) (item : Record) (rest : List Record)
        (tok : Json) (n : ℕ) (e : PyErr),
      api_post_request item (postEnv n) tok = .error e →
      (postLoop postEnv (item :: rest) tok n).outcomes = [] ∧
      (postLoop postEnv (item :: rest) tok n).aborted = true) := by
  refine ⟨?_, ?_, ?_⟩
  · intro postEnv item rest tok n b tok1 io h
    simp only [postLoop, h]
  · intro postEnv items hkeys
    induction items with
    | nil => intro tok n; rfl
    | cons item rest ih =>
        intro tok n
        obtain ⟨b, tok1, io, h⟩ := api_post_ok_of_keys item (postEnv n) tok
          (hkeys item (List.mem_cons_self _ _))
        simp only [postLoop, h, List.length_cons]
        rw [ih (fun r hr => hkeys r (List.mem_cons_of_mem _ hr))]
  · intro postEnv item rest tok n e h
    exact ⟨by simp only [postLoop, h], by simp only [postLoop, h]⟩

theorem c5_independent_submissions_amended_witness :
    (postLoop (fun _ => some ⟨500, Json.jnull⟩) [recFull, recFull] (Json.jstr "t") 0).outcomes
        = false :: (postLoop (fun _ => some ⟨500, Json.jnull⟩) [recFull] (Json.jstr "t")
            1).outcomes ∧
    ((postLoop (fun _ => some ⟨500, Json.jnull⟩) [recFull, recFull]
        (Json.jstr "t") 0).outcomes).length = 2 ∧
    (postLoop (fun _ => some ⟨200, Json.jobj []⟩) [recNoTitolo, recFull]
        (Json.jstr "t") 0).outcomes = [] := by
  refine ⟨?_, ?_, ?_⟩
  · exact c5_independent_submissions_amended.1 (fun _ => some ⟨500, Json.jnull⟩)
      recFull [recFull] (Json.jstr "t") 0 false (Json.jstr "t")
      (some (Json.jobj [("name", Json.jstr "a"), ("description", Json.jstr "b"),
        ("amount", Json.jnum 1), ("type", Json.jstr "c"), ("date", Json.jstr "e")])) rfl
  · exact c5_independent_submissions_amended.2.1 (fun _ => some ⟨500, Json.jnull⟩)
      [recFull, recFull]
      (by
        intro r hr
        simp only [List.mem_cons, List.mem_singleton] at hr
        rcases hr with rfl | rfl | h
        · rfl
        · rfl
        · cases h)
      (Json.jstr "t") 0
  · exact (c5_independent_submissions_amended.2.2 (fun _ => some ⟨200, Json.jobj []⟩)
      recNoTitolo [recFull] (Json.jstr "t") 0 PyErr.keyError rfl).1

/-! ## Claim C6: session-token transitions -/

theorem except_error_bind {α β : Type} (e : PyErr) (f : α → Except PyErr β) :
    (Except.error e >>= f) = Except.error e := rfl

theorem except_ok_bind {α β : Type} (a : α) (f : α → Except PyErr β) :
    (Except.ok a >>= f) = f a := rfl

/-- Predicate picking login events out of a trace. -/
def isLoginEv : Event → Bool
  | .loginReq => true
  | _ => false

/-- Predicate picking GET events out of a trace. -/
def isGetEv : Event → Bool
  | .getReq => true
  | _ => false

/-- Predicate picking POST events out of a trace. -/
def isPostEv : Event → Bool
  | .postReq _ => true
  | _ => false

theorem resolveAll_length (td : Json) :
    ∀ l : List Record, (resolveAll td l).1.length = l.length := by
  intro l
  induction l with
  | nil => rfl
  | cons item rest ih =>
      cases hr : resolveItem td item with
      | error e => simp [resolveAll, hr]
      | ok item1 => simp [resolveAll, hr, ih]

theorem postLoop_countP (postEnv : ℕ → Option HttpResp) :
    ∀ (items : List Record) (tok : Json) (n : ℕ),
      (postLoop postEnv items tok n).events.countP (fun e => isLoginEv e) = 0 ∧
      (postLoop postEnv items tok n).events.countP (fun e => isGetEv e) = 0 ∧
      (postLoop postEnv items tok n).events.countP (fun e => isPostEv e) ≤ items.length := by
  intro items
  induction items with
  | nil => intro tok n; simp [postLoop]
  | cons item rest ih =>
      intro tok n
      cases h : api_post_request item (postEnv n) tok with
      | error e => simp [postLoop, h]
      | ok t =>
          obtain ⟨b, tok1, io⟩ := t
          cases io with
          | none =>
              have ihx := ih tok1 (n + 0)
              simp only [postLoop, h, List.nil_append, List.length_cons]
              exact ⟨ihx.1, ihx.2.1, Nat.le_succ_of_le ihx.2.2⟩
          | some bd =>
              have ihx := ih tok1 (n + 1)
              simp only [postLoop, h, List.countP_append, List.length_cons]
              have hone : List.countP (fun e => isPostEv e) [Event.postReq bd] = 1 := by
                simp [isPostEv]
              have hz1 : List.countP (fun e => isLoginEv e) [Event.postReq bd] = 0 := by
                simp [isLoginEv]
              have hz2 : List.countP (fun e => isGetEv e) [Event.postReq bd] = 0 := by
                simp [isGetEv]
              rw [hone, hz1, hz2]
              refine ⟨by rw [Nat.zero_add]; exact ihx.1,
                by rw [Nat.zero_add]; exact ihx.2.1, ?_⟩
              have := ihx.2.2
              omega

theorem api_post_cases (item : Record) (resp : Option HttpResp) (tok : Json)
    (b : Bool) (tok1 : Json) (io : Option Json) (ht : truthy tok = true)
    (h : api_post_request item resp tok = .ok (b, tok1, io)) :
    (resp = none ∧ b = false ∧ tok1 = tok) ∨
    (∃ r, resp = some r ∧
      (((r.status = 200 ∨ r.status = 201) ∧ b = true ∧ tok1 = tok) ∨
       (r.status = 401 ∧ b = false ∧ tok1 = Json.jnull) ∨
       (¬(r.status = 200 ∨ r.status = 201) ∧ r.status ≠ 401 ∧ b = false ∧ tok1 = tok))) := by
  cases hv1 : dictGet item "Titolo" with
  | none => simp [api_post_request, ht, rsub, hv1, except_error_bind] at h
  | some n1 =>
    cases hv2 : dictGet item "Descrizione" with
    | none =>
        simp [api_post_request, ht, rsub, hv1, hv2, except_error_bind, except_ok_bind] at h
    | some n2 =>
      cases hv3 : dictGet item "Importo" with
      | none =>
          simp [api_post_request, ht, rsub, hv1, hv2, hv3, except_error_bind,
            except_ok_bind] at h
      | some n3 =>
        cases hv4 : dictGet item "Tipo" with
        | none =>
            simp [api_post_request, ht, rsub, hv1, hv2, hv3, hv4, except_error_bind,
              except_ok_bind] at h
        | some n4 =>
          cases hv5 : dictGet item "Data" with
          | none =>
              simp [api_post_request, ht, rsub, hv1, hv2, hv3, hv4, hv5,
                except_error_bind, except_ok_bind] at h
          | some n5 =>
            simp only [api_post_request, ht, if_true, rsub, hv1, hv2, hv3, hv4, hv5,
              except_ok_bind] at h
            cases resp with
            | none =>
                simp only [Except.ok.injEq, Prod.mk.injEq] at h
                exact Or.inl ⟨rfl, h.1.symm, h.2.1.symm⟩
            | some r =>
                dsimp only at h
                by_cases hs : (r.status = 200 ∨ r.status = 201)
                · simp only [hs, if_true, Except.ok.injEq, Prod.mk.injEq] at h
                  exact Or.inr ⟨r, rfl, Or.inl ⟨hs, h.1.symm, h.2.1.symm⟩⟩
                · by_cases h4 : r.status = 401
                  · rw [h4] at h
                    norm_num at h
                    exact Or.inr ⟨r, rfl, Or.inr (Or.inl ⟨h4, h.1, h.2.1.symm⟩)⟩
                  · simp only [hs, if_false, h4, Except.ok.injEq, Prod.mk.injEq] at h
                    exact Or.inr ⟨r, rfl, Or.inr (Or.inr ⟨hs, h4, h.1.symm, h.2.1.symm⟩)⟩

theorem workflow_event_counts (cfg : Bool) (loginResp getResp : Option HttpResp)
    (postEnv : ℕ → Option HttpResp) (txs : List Record) (tok0 : Json) :
    (execute_api_workflow cfg loginResp getResp postEnv txs tok0).events.countP
        (fun e => isLoginEv e) ≤ 1 ∧
    (execute_api_workflow cfg loginResp getResp postEnv txs tok0).events.countP
        (fun e => isGetEv e) ≤ 1 ∧
    (execute_api_workflow cfg loginResp getResp postEnv txs tok0).events.countP
        (fun e => isPostEv e) ≤ txs.length := by
  have hlog : ∀ l : List Event,
      (if cfg then [Event.loginReq] else []).countP (fun e => isLoginEv e) ≤ 1 ∧
      (if cfg then [Event.loginReq] else []).countP (fun e => isGetEv e) = 0 ∧
      (if cfg then [Event.loginReq] else []).countP (fun e => isPostEv e) = 0 := by
    intro _; cases cfg <;> simp [isLoginEv, isGetEv, isPostEv]
  have hget : ∀ io : Bool,
      (if io then [Event.getReq] else []).countP (fun e => isLoginEv e) = 0 ∧
      (if io then [Event.getReq] else []).countP (fun e => isGetEv e) ≤ 1 ∧
      (if io then [Event.getReq] else []).countP (fun e => isPostEv e) = 0 := by
    intro io; cases io <;> simp [isLoginEv, isGetEv, isPostEv]
  cases hl : login_api cfg loginResp tok0 with
  | error e =>
      simp only [execute_api_workflow, hl]
      obtain ⟨a1, a2, a3⟩ := hlog []
      exact ⟨a1, by rw [a2]; omega, by rw [a3]; exact Nat.zero_le _⟩
  | ok p =>
      obtain ⟨bb, tok1⟩ := p
      cases bb with
      | false =>
          simp only [execute_api_workflow, hl]
          obtain ⟨a1, a2, a3⟩ := hlog []
          exact ⟨a1, by rw [a2]; omega, by rw [a3]; exact Nat.zero_le _⟩
      | true =>
          rcases hg : api_get_request getResp tok1 with ⟨res, tok2, io⟩
          obtain ⟨a1, a2, a3⟩ := hlog []
          obtain ⟨b1, b2, b3⟩ := hget io
          have habort : ∀ tk rcds,
              (WfResult.mk tk ((if cfg then [Event.loginReq] else []) ++
                  (if io then [Event.getReq] else [])) [] rcds
                  (execute_api_workflow cfg loginResp getResp postEnv txs tok0).raised).events.countP
                  (fun e => isLoginEv e) ≤ 1 := by
            intro tk rcds
            simp only [List.countP_append]
            omega
          have main : ∀ (resolved : List Record) (lo : LoopOut),
              lo = postLoop postEnv resolved tok2 0 →
              resolved.length = txs.length →
              (((if cfg then [Event.loginReq] else []) ++
                 (if io then [Event.getReq] else [])) ++ lo.events).countP
                  (fun e => isLoginEv e) ≤ 1 ∧
              (((if cfg then [Event.loginReq] else []) ++
                 (if io then [Event.getReq] else [])) ++ lo.events).countP
                  (fun e => isGetEv e) ≤ 1 ∧
              (((if cfg then [Event.loginReq] else []) ++
                 (if io then [Event.getReq] else [])) ++ lo.events).countP
                  (fun e => isPostEv e) ≤ txs.length := by
            intro resolved lo hlo hlen
            obtain ⟨p1, p2, p3⟩ := postLoop_countP postEnv resolved tok2 0
            rw [← hlo] at p1 p2 p3
            simp only [List.countP_append]
            omega
          simp only [execute_api_workflow, hl, hg]
          cases res with
          | none =>
              simp only [resolveAll_jnull]
              exact main txs _ rfl rfl
          | some body =>
              by_cases htb : truthy body = true
              · cases hjd : jget body "data" with
                | error e =>
                    simp only [htb, if_true, hjd, List.countP_append]
                    refine ⟨by omega, by omega, by omega⟩
                | ok td =>
                    simp only [htb, if_true, hjd]
                    rcases hra : resolveAll td txs with ⟨resolved, rerr⟩
                    have hlen : resolved.length = txs.length := by
                      have := resolveAll_length td txs
                      rw [hra] at this
                      exact this
                    cases rerr with
                    | some e =>
                        simp only [List.countP_append]
                        refine ⟨by omega, by omega, by omega⟩
                    | none => exact main resolved _ rfl hlen
              · have htb2 : truthy body = false := by simpa using htb
                simp only [htb2, Bool.false_eq_true, if_false, resolveAll_jnull]
                exact main txs _ rfl rfl

/-- Claim C6: session-state transitions.  (1) A 401 on an authenticated GET
clears the stored token immediately (and issues no further HTTP call).
(2) The GET changes the token only in that case: otherwise the token is
returned unchanged.  (3) A 401 on an authenticated POST reports False and
clears the token.  (4) The POST changes the token only in that case.
(5) Starting from the unauthenticated state, login leaves the session
authenticated exactly when it reports success - the only transition into
the authenticated state.  (6) Within one workflow run there is no automatic
re-login and no retry: at most one login call, at most one GET call, and at
most one POST call per transaction record. -/
theorem c6_session_transitions :
    (∀ (r : HttpResp) (tok : Json), truthy tok = true → r.status = 401 →
       api_get_request (some r) tok = (none, Json.jnull, true)) ∧
    (∀ (resp : Option HttpResp) (tok : Json),
       (api_get_request resp tok).2.1 = tok ∨
       ((api_get_request resp tok).2.1 = Json.jnull ∧
         ∃ r, resp = some r ∧ r.status = 401 ∧ truthy tok = true)) ∧
    (∀ (item : Record) (r : HttpResp) (tok : Json) (b : Bool) (tok1 : Json)
        (io : Option Json),
       truthy tok = true → r.status = 401 →
       api_post_request item (some r) tok = .ok (b, tok1, io) →
       b = false ∧ tok1 = Json.jnull) ∧
    (∀ (item : Record) (resp : Option HttpResp) (tok : Json) (b : Bool) (tok1 : Json)
        (io : Option Json),
       api_post_request item resp tok = .ok (b, tok1, io) →
       tok1 = tok ∨ (tok1 = Json.jnull ∧ ∃ r, resp = some r ∧ r.status = 401 ∧
         truthy tok = true)) ∧
    (∀ (cfg : Bool) (resp : Option HttpResp) (b : Bool) (tok1 : Json),
       login_api cfg resp Json.jnull = .ok (b, tok1) → truthy tok1 = b) ∧
    (∀ (cfg : Bool) (loginResp getResp : Option HttpResp)
        (postEnv : ℕ → Option HttpResp) (txs : List Record) (tok0 : Json),
       (execute_api_workflow cfg loginResp getResp postEnv txs tok0).events.countP
           (fun e => isLoginEv e) ≤ 1 ∧
       (execute_api_workflow cfg loginResp getResp postEnv txs tok0).events.countP
           (fun e => isGetEv e) ≤ 1 ∧
       (execute_api_workflow cfg loginResp getResp postEnv txs tok0).events.countP
           (fun e => isPostEv e) ≤ txs.length) := by
  refine ⟨?_, ?_, ?_, ?_, ?_, ?_⟩
  · intro r tok ht h401
    simp [api_get_request, ht, h401]
  · intro resp tok
    by_cases ht : truthy tok = true
    · cases resp with
      | none => left; simp [api_get_request, ht]
      | some r =>
          by_cases hs : r.status = 200
          · left; simp [api_get_request, ht, hs]
          · by_cases h4 : r.status = 401
            · right
              refine ⟨by simp [api_get_request, ht, hs, h4], r, rfl, h4, ht⟩
            · left; simp [api_get_request, ht, hs, h4]
    · have ht2 : truthy tok = false := by simpa using ht
      left; simp [api_get_request, ht2]
  · intro item r tok b tok1 io ht h401 h
    rcases api_post_cases item (some r) tok b tok1 io ht h with
      ⟨heq, _, _⟩ | ⟨r2, hr2, hcase⟩
    · cases heq
    · obtain rfl : r2 = r := (Option.some.inj hr2).symm
      rcases hcase with ⟨hs, _, _⟩ | ⟨_, hb, htk⟩ | ⟨_, hne, _, _⟩
      · rcases hs with hs | hs <;> omega
      · exact ⟨hb, htk⟩
      · exact absurd h401 hne
  · intro item resp tok b tok1 io h
    by_cases ht : truthy tok = true
    · rcases api_post_cases item resp tok b tok1 io ht h with
        ⟨_, _, htk⟩ | ⟨r, hr, hc⟩
      · exact Or.inl htk
      · rcases hc with ⟨_, _, htk⟩ | ⟨h4, _, htk⟩ | ⟨_, _, _, htk⟩
        · exact Or.inl htk
        · exact Or.inr ⟨htk, r, hr, h4, ht⟩
        · exact Or.inl htk
    · have ht2 : truthy tok = false := by simpa using ht
      left
      simp only [api_post_request, ht2, Bool.false_eq_true, if_false,
        Except.ok.injEq, Prod.mk.injEq] at h
      exact h.2.1.symm
  · intro cfg resp b tok1 h
    cases cfg with
    | false =>
        simp only [login_api, Bool.false_eq_true, if_false, Except.ok.injEq,
          Prod.mk.injEq] at h
        rw [← h.1, ← h.2]
        rfl
    | true =>
        cases resp with
        | none =>
            simp only [login_api, if_true, Except.ok.injEq, Prod.mk.injEq] at h
            rw [← h.1, ← h.2]
            rfl
        | some r =>
            by_cases hs : r.status = 200
            · cases hd : jsub r.body "data" with
              | error e => simp [login_api, hs, hd] at h
              | ok d =>
                  cases ht1 : jget d "token" with
                  | error e => simp [login_api, hs, hd, ht1] at h
                  | ok t1 =>
                      cases ht2 : jget d "access_token" with
                      | error e => simp [login_api, hs, hd, ht1, ht2] at h
                      | ok t2 =>
                          simp only [login_api, if_true, hs, hd, ht1, ht2,
                            Except.ok.injEq, Prod.mk.injEq] at h
                          rw [← h.1, ← h.2]
            · simp only [login_api, if_true, hs, Bool.false_eq_true, if_false,
                Except.ok.injEq, Prod.mk.injEq] at h
              rw [← h.1, ← h.2]
              rfl
  · intro cfg loginResp getResp postEnv txs tok0
    exact workflow_event_counts cfg loginResp getResp postEnv txs tok0

theorem c6_session_transitions_witness :
    api_get_request (some ⟨401, Json.jnull⟩) (Json.jstr "t") = (none, Json.jnull, true) ∧
    (false = false ∧ Json.jnull = Json.jnull) ∧
    (Json.jnull = Json.jstr "t" ∨ (Json.jnull = Json.jnull ∧
      ∃ r, (some (HttpResp.mk 401 Json.jnull) : Option HttpResp) = some r ∧
        r.status = 401 ∧ truthy (Json.jstr "t") = true)) ∧
    truthy (Json.jstr "t") = true :=
  ⟨c6_session_transitions.1 ⟨401, Json.jnull⟩ (Json.jstr "t") rfl rfl,
   c6_session_transitions.2.2.1 recFull ⟨401, Json.jnull⟩ (Json.jstr "t") false Json.jnull
     (some (Json.jobj [("name", Json.jstr "a"), ("description", Json.jstr "b"),
       ("amount", Json.jnum 1), ("type", Json.jstr "c"), ("date", Json.jstr "e")]))
     rfl rfl rfl,
   c6_session_transitions.2.2.2.1 recFull (some ⟨401, Json.jnull⟩) (Json.jstr "t") false
     Json.jnull
     (some (Json.jobj [("name", Json.jstr "a"), ("description", Json.jstr "b"),
       ("amount", Json.jnum 1), ("type", Json.jstr "c"), ("date", Json.jstr "e")]))
     rfl,
   c6_session_transitions.2.2.2.2.1 true loginOkResp true (Json.jstr "t") rfl⟩
